import Mathlib

/-!
# IoT environmental monitor: broker session, payload formatting, sensor scaling, link events

A shallow embedding of `app/src/mqtt_client.c`, `app/src/sensor.c`, `app/src/network.c`
and `app/src/messages.h`.

* Machine integers are `Int`/`Nat`; casts to a 32-bit field are written out (`cast_int32`,
  `cast_uint32`).
* The collaborators (Zephyr MQTT library, sockets, zbus) answer through an environment
  `Env : Nat → Resp`: `env k` answers the call recorded at position `k` of the trace.  Every
  call made by the code is appended to the `trace` of the state.
* The retry loop of `mqtt_connect_to_broker` is unbounded when `CONFIG_MQTT_MAX_RETRY_COUNT`
  is `0`, so it carries a fuel argument and returns `none` when the fuel is used up.
-/

namespace IotMonitor

/-! ## messages.h -/

/-- Message of `net_state_chan`: one boolean field `is_connected` (the struct is declared as
`l4_state` in `messages.h` and used under the name `net_state` by `network.c` and
`mqtt_client.c`). -/
structure net_state where
  is_connected : Bool
deriving DecidableEq, Repr

/-- Message of `sensor_data_chan` (`struct sensor_reading`). -/
structure sensor_reading where
  timestamp_ms : Int
  temperature_mc : Int
  humidity : Nat
  pressure : Nat
deriving DecidableEq, Repr

/-! ## Integer conversions of C -/

def INT32_MIN : Int := -2147483648
def INT32_MAX : Int := 2147483647
def UINT32_MAX : Nat := 4294967295

/-- Conversion of a wider integer to `int32_t` (two's complement wrap). -/
def cast_int32 (x : Int) : Int := (x + 2147483648) % 4294967296 - 2147483648

/-- Conversion of a wider integer to `uint32_t` (reduction modulo `2^32`). -/
def cast_uint32 (x : Int) : Nat := (x % 4294967296).toNat

/-! ## The `snprintk` conversions used by `publish_sensor_data` -/

/-- ASCII character of one decimal digit. -/
def digitChar : Nat → Char
  | 0 => '0'
  | 1 => '1'
  | 2 => '2'
  | 3 => '3'
  | 4 => '4'
  | 5 => '5'
  | 6 => '6'
  | 7 => '7'
  | 8 => '8'
  | _ => '9'

/-- Decimal digits of `n`, most significant first; `fuel` bounds the number of divisions. -/
def decDigitsAux : Nat → Nat → List Char
  | 0, n => [digitChar (n % 10)]
  | fuel + 1, n =>
    if n < 10 then [digitChar n] else decDigitsAux fuel (n / 10) ++ [digitChar (n % 10)]

/-- Conversion `%u`: the decimal digits of an unsigned value, no padding. -/
def fmt_u (n : Nat) : List Char := decDigitsAux n n

/-- Conversion `%d`: a minus sign for a negative value, then the digits of the magnitude. -/
def fmt_d (v : Int) : List Char :=
  if v < 0 then '-' :: fmt_u v.natAbs else fmt_u v.natAbs

/-- Left padding with the character `0` up to `width` characters. -/
def zeroPad (width : Nat) (cs : List Char) : List Char :=
  List.replicate (width - cs.length) '0' ++ cs

/-- Conversion `%03u`: digits, zero padded to at least three characters. -/
def fmt_03u (n : Nat) : List Char := zeroPad 3 (fmt_u n)

/-- Conversion `%03d`: the sign comes first and counts in the width of three. -/
def fmt_03d (v : Int) : List Char :=
  if v < 0 then '-' :: zeroPad 2 (fmt_u v.natAbs) else zeroPad 3 (fmt_u v.natAbs)

/-- Effect of `snprintk(buf, sizeof(buf), ...)` with `char buf[32]`: at most 31 characters
are stored before the terminator. -/
def snprintk32 (cs : List Char) : String := String.mk (cs.take 31)

/-! ## mqtt_client.c: payload formatting of `publish_sensor_data` -/

/-- C division of `int32_t` operands: the quotient is truncated toward zero. -/
def c_div (a b : Int) : Int := Int.tdiv a b

/-- C remainder of `int32_t` operands: it has the sign of the dividend. -/
def c_mod (a b : Int) : Int := Int.tmod a b

/-- Temperature payload, lines 207-216 of `mqtt_client.c`. -/
def temperature_payload (temperature_mc : Int) : String :=
  let temp_int := c_div temperature_mc 1000
  let temp_frac := c_mod temperature_mc 1000
  let temp_frac := if temp_frac < 0 then -temp_frac else temp_frac
  if temperature_mc < 0 ∧ temp_int = 0 then
    snprintk32 ('-' :: '0' :: '.' :: fmt_03d temp_frac)
  else
    snprintk32 (fmt_d temp_int ++ '.' :: fmt_03d temp_frac)

/-- Humidity and pressure payload (`"%u.%03u"`), lines 219 and 222 of `mqtt_client.c`. -/
def unsigned_payload (v : Nat) : String :=
  snprintk32 (fmt_u (v / 1000) ++ '.' :: fmt_03u (v % 1000))

/-! ## Reading a payload back: a signed decimal with three fractional digits -/

/-- Value of one ASCII decimal digit. -/
def digitVal (c : Char) : Option Nat :=
  if c = '0' then some 0 else if c = '1' then some 1 else if c = '2' then some 2
  else if c = '3' then some 3 else if c = '4' then some 4 else if c = '5' then some 5
  else if c = '6' then some 6 else if c = '7' then some 7 else if c = '8' then some 8
  else if c = '9' then some 9 else none

/-- One step of reading a digit string. -/
def parseStep (acc : Option Nat) (c : Char) : Option Nat :=
  match acc, digitVal c with
  | some a, some d => some (10 * a + d)
  | _, _ => none

/-- Value of a non-empty string of decimal digits. -/
def parseDigits (cs : List Char) : Option Nat :=
  if cs = [] then none else cs.foldl parseStep (some 0)

/-- Value, in thousandths, of `[-]digits.ddd`: at least one digit before the point and
exactly three after it. -/
def parseMilli (s : String) : Option Int :=
  let neg := s.data.head? = some '-'
  let body := if neg then s.data.tail else s.data
  let ip := body.takeWhile (fun c => c ≠ '.')
  match body.dropWhile (fun c => c ≠ '.') with
  | [] => none
  | _ :: fp =>
    if fp.length = 3 then
      match parseDigits ip, parseDigits fp with
      | some i, some f =>
        some (if neg then -((i : Int) * 1000 + (f : Int)) else (i : Int) * 1000 + (f : Int))
      | _, _ => none
    else none

/-! ## The decimal rendering named by the wire format -/

/-- The three fractional digits of a value given in thousandths. -/
def fracDigits (m : Nat) : List Char :=
  [digitChar (m % 1000 / 100), digitChar (m % 1000 / 10 % 10), digitChar (m % 1000 % 10)]

/-- Characters of the value `m / 1000` written as an ASCII decimal with exactly three
fractional digits: a minus sign when `neg`, the digits of the integer part, a point, and
the three digits of the thousandths. -/
def milliChars (neg : Bool) (m : Nat) : List Char :=
  (if neg = true then ['-'] else []) ++ (fmt_u (m / 1000) ++ '.' :: fracDigits m)

/-- The decimal with three fractional digits of a signed value given in thousandths. -/
def decimal3 (v : Int) : String := String.mk (milliChars (decide (v < 0)) v.natAbs)

/-! ## sensor.c: scaling of a decoded q31 channel -/

def INT64_MIN : Int := -9223372036854775808
def INT64_MAX : Int := 9223372036854775807

/-- The expression `(int64_t)raw * 1000 >> (31 - shift)` of `sensor_thread`, lines 96-98 of
`sensor.c`.  The right shift of a signed value is the arithmetic shift of the target
compilers; a product outside `int64_t` or a shift count outside `0..63` has no defined
result. -/
def scale_q31 (raw shift : Int) : Option Int :=
  if INT64_MIN ≤ raw * 1000 ∧ raw * 1000 ≤ INT64_MAX ∧ 0 ≤ 31 - shift ∧ 31 - shift ≤ 63 then
    some (Int.shiftRight (raw * 1000) (31 - shift).toNat)
  else none

/-- Value stored in `reading.temperature_mc` (cast to `int32_t`), line 96 of `sensor.c`. -/
def decode_temperature (raw shift : Int) : Option Int :=
  (scale_q31 raw shift).map cast_int32

/-- Value stored in `reading.pressure` (cast to `uint32_t`), line 97 of `sensor.c`. -/
def decode_pressure (raw shift : Int) : Option Nat :=
  (scale_q31 raw shift).map cast_uint32

/-- Value stored in `reading.humidity` (cast to `uint32_t`), line 98 of `sensor.c`. -/
def decode_humidity (raw shift : Int) : Option Nat :=
  (scale_q31 raw shift).map cast_uint32

/-! ## network.c: the link event handler -/

/-- Management events seen by `net_event_handler`; `OTHER` is every event of the
`default` branch. -/
inductive net_event where
  | WIFI_CONNECT_RESULT
  | WIFI_DISCONNECT_RESULT
  | IPV4_ADDR_ADD
  | OTHER (code : Nat)
deriving DecidableEq, Repr

/-- Calls made by the link activity. -/
inductive NetCall where
  | zbus_chan_pub (msg : net_state)
  | net_mgmt_wifi_connect
deriving DecidableEq, Repr

/-- State of the link activity: the calls made so far. -/
structure NetState where
  calls : List NetCall
deriving DecidableEq, Repr

/-- Publication of a link state, `net_state_publish`; `bus k` is the return code of the
`k`-th call made, which the function hands back to its caller. -/
def net_state_publish (bus : Nat → Int) (connected : Bool) (s : NetState) : Int × NetState :=
  (bus s.calls.length, { calls := s.calls ++ [NetCall.zbus_chan_pub { is_connected := connected }] })

/-- Request of a radio connection, `wifi_connect`. -/
def wifi_connect (bus : Nat → Int) (s : NetState) : Int × NetState :=
  (bus s.calls.length, { calls := s.calls ++ [NetCall.net_mgmt_wifi_connect] })

/-- The handler `net_event_handler`, lines 72-92 of `network.c`. -/
def net_event_handler (bus : Nat → Int) (mgmt_event : net_event) (s : NetState) : NetState :=
  match mgmt_event with
  | net_event.WIFI_CONNECT_RESULT => s
  | net_event.WIFI_DISCONNECT_RESULT =>
    let s1 := (net_state_publish bus false s).2
    (wifi_connect bus s1).2
  | net_event.IPV4_ADDR_ADD => (net_state_publish bus true s).2
  | net_event.OTHER _ => s

/-- The handler applied to a sequence of events, in order. -/
def net_events (bus : Nat → Int) (evs : List net_event) (s : NetState) : NetState :=
  evs.foldl (fun st ev => net_event_handler bus ev st) s

/-- Number of publications of `is_connected = true` among the calls. -/
def count_up (cs : List NetCall) : Nat :=
  cs.count (NetCall.zbus_chan_pub { is_connected := true })

/-- Number of address-assigned events in a sequence. -/
def count_addr (evs : List net_event) : Nat :=
  evs.count net_event.IPV4_ADDR_ADD

/-! ## mqtt_client.c: collaborators of the broker session -/

/-- Build configuration: the Kconfig values the session reads.  `MQTT_MAX_RETRY_COUNT` is
`CONFIG_MQTT_MAX_RETRY_COUNT` (0 = no bound); `broker_addr_valid` tells whether
`zsock_inet_pton` accepts `CONFIG_MQTT_BROKER_ADDR`. -/
structure Config where
  MQTT_MAX_RETRY_COUNT : Nat
  broker_addr_valid : Bool
deriving DecidableEq, Repr

def EAGAIN : Int := 11
def EINVAL : Int := 22
def ENOMSG : Int := 35
def ETIMEDOUT : Int := 116

def MQTT_CONNECT_FAILURE_BACKOFF_SEC : Nat := 30

def TOPIC_TEMPERATURE : String := "sensors/temperature"
def TOPIC_HUMIDITY : String := "sensors/humidity"
def TOPIC_PRESSURE : String := "sensors/pressure"

/-- Event types of the MQTT library that `mqtt_event_handler` distinguishes. -/
inductive mqtt_evt_type where
  | CONNACK
  | DISCONNECT
  | PUBACK
  | PINGRESP
  | OTHER
deriving DecidableEq, Repr

/-- An event handed to the client's callback (`struct mqtt_evt`: type and result). -/
structure mqtt_evt where
  type : mqtt_evt_type
  result : Int
deriving DecidableEq, Repr

/-- Answer of a collaborator to one call: its return code, whether `ZSOCK_POLLIN` is set in
`revents` (socket polls), and the events the library hands to the callback during the call. -/
structure Resp where
  rc : Int
  pollin : Bool
  events : List mqtt_evt
deriving DecidableEq, Repr

/-- The environment: `env k` answers the call recorded at position `k` of the trace. -/
abbrev Env := Nat → Resp

/-- Calls made by the session activity, with the return code where the code reads it. -/
inductive Call where
  | k_sleep (seconds : Nat)
  | mqtt_client_init
  | mqtt_connect (rc : Int)
  | zsock_poll (timeout_ms : Nat) (rc : Int)
  | mqtt_input (rc : Int)
  | mqtt_disconnect
  | mqtt_live (rc : Int)
  | mqtt_publish (topic : String) (payload : String) (rc : Int)
deriving DecidableEq, Repr

/-- The two static flags of `mqtt_client.c` and the calls made so far. -/
structure State where
  mqtt_connected : Bool
  net_connected : Bool
  trace : List Call
deriving DecidableEq, Repr

/-- State at thread start: both static flags are zero-initialised. -/
def State.init : State := { mqtt_connected := false, net_connected := false, trace := [] }

/-- The callback `mqtt_event_handler`, lines 38-62. -/
def mqtt_event_handler (evt : mqtt_evt) (s : State) : State :=
  match evt.type with
  | mqtt_evt_type.CONNACK =>
    if evt.result ≠ 0 then s else { s with mqtt_connected := true }
  | mqtt_evt_type.DISCONNECT => { s with mqtt_connected := false }
  | mqtt_evt_type.PUBACK => s
  | mqtt_evt_type.PINGRESP => s
  | mqtt_evt_type.OTHER => s

/-- The callback applied to the events of one library call, in order. -/
def deliver (evts : List mqtt_evt) (s : State) : State :=
  evts.foldl (fun st e => mqtt_event_handler e st) s

/-- A call of the MQTT library on the client: the events of the answer reach the callback,
the call is recorded, the return code is handed back. -/
def client_call (env : Env) (mk : Int → Call) (s : State) : Int × State :=
  let r := env s.trace.length
  let s1 := deliver r.events s
  (r.rc, { s1 with trace := s1.trace ++ [mk r.rc] })

def mqtt_connect (env : Env) (s : State) : Int × State :=
  client_call env Call.mqtt_connect s

def mqtt_input (env : Env) (s : State) : Int × State :=
  client_call env Call.mqtt_input s

def mqtt_live (env : Env) (s : State) : Int × State :=
  client_call env Call.mqtt_live s

def mqtt_disconnect (env : Env) (s : State) : Int × State :=
  client_call env (fun _ => Call.mqtt_disconnect) s

def mqtt_publish (env : Env) (topic payload : String) (s : State) : Int × State :=
  client_call env (Call.mqtt_publish topic payload) s

/-- A socket poll: return code and the `ZSOCK_POLLIN` bit of `revents`. -/
def zsock_poll (env : Env) (timeout_ms : Nat) (s : State) : (Int × Bool) × State :=
  let r := env s.trace.length
  ((r.rc, r.pollin), { s with trace := s.trace ++ [Call.zsock_poll timeout_ms r.rc] })

def k_sleep (seconds : Nat) (s : State) : State :=
  { s with trace := s.trace ++ [Call.k_sleep seconds] }

def mqtt_client_init (s : State) : State :=
  { s with trace := s.trace ++ [Call.mqtt_client_init] }

/-! ## mqtt_client.c: connecting to the broker -/

/-- How one pass through the body of the retry loop ends. -/
inductive AttemptResult where
  | open_failed
  | connack_timeout
  | input_failed
  | rejected
  | accepted
deriving DecidableEq, Repr

/-- One pass through the body of the `while` loop of `mqtt_connect_to_broker`, lines 80-133;
`attempt` is the loop counter on entry. -/
def connect_attempt (env : Env) (attempt : Nat) (s : State) : AttemptResult × State :=
  let s0 := if attempt > 0 then k_sleep 5 s else s
  let s1 := mqtt_client_init s0
  let c := mqtt_connect env s1
  if c.1 ≠ 0 then (AttemptResult.open_failed, c.2)
  else
    let p := zsock_poll env 5000 c.2
    if p.1.1 ≤ 0 then
      let d := mqtt_disconnect env p.2
      (AttemptResult.connack_timeout, { d.2 with mqtt_connected := false })
    else
      let i := mqtt_input env p.2
      if i.1 ≠ 0 then
        let d := mqtt_disconnect env i.2
        (AttemptResult.input_failed, { d.2 with mqtt_connected := false })
      else if i.2.mqtt_connected = true then (AttemptResult.accepted, i.2)
      else
        let d := mqtt_disconnect env i.2
        (AttemptResult.rejected, d.2)

/-- The `while` loop of `mqtt_connect_to_broker`, lines 79-137; every pass uses one unit of
fuel, `none` when the fuel is used up before the loop is left.  The counter `attempt` is a
C `int`; runs of `2^31` passes are outside the model. -/
def connect_loop (cfg : Config) (env : Env) : Nat → Nat → State → Option (Int × State)
  | fuel, attempt, s =>
    if cfg.MQTT_MAX_RETRY_COUNT = 0 ∨ attempt < cfg.MQTT_MAX_RETRY_COUNT then
      match fuel with
      | 0 => none
      | fuel + 1 =>
        let a := connect_attempt env attempt s
        if a.1 = AttemptResult.accepted then some (0, a.2)
        else connect_loop cfg env fuel (attempt + 1) a.2
    else some (-ETIMEDOUT, s)

/-- The function `mqtt_connect_to_broker`, lines 64-138. -/
def mqtt_connect_to_broker (cfg : Config) (env : Env) (fuel : Nat) (s : State) :
    Option (Int × State) :=
  if cfg.broker_addr_valid = false then some (-EINVAL, s)
  else connect_loop cfg env fuel 0 s

/-- State on entry to pass `k` of the retry loop when the passes before it were all run. -/
def attempt_state (env : Env) (s : State) : Nat → State
  | 0 => s
  | k + 1 => (connect_attempt env k (attempt_state env s k)).2

/-- Result of pass `k` of the retry loop when the passes before it were all run. -/
def attempt_result (env : Env) (s : State) (k : Nat) : AttemptResult :=
  (connect_attempt env k (attempt_state env s k)).1

/-! ## mqtt_client.c: servicing and publishing -/

/-- The keep-alive step of `service_mqtt_connection`, lines 164-168. -/
def service_live (env : Env) (s : State) : State :=
  let l := mqtt_live env s
  if l.1 ≠ 0 ∧ l.1 ≠ -EAGAIN then { l.2 with mqtt_connected := false } else l.2

/-- The function `service_mqtt_connection`, lines 140-169. -/
def service_mqtt_connection (env : Env) (s : State) : State :=
  let p := zsock_poll env 0 s
  if p.1.1 < 0 then { p.2 with mqtt_connected := false }
  else if p.1.1 > 0 ∧ p.1.2 = true then
    let i := mqtt_input env p.2
    if i.1 ≠ 0 then { i.2 with mqtt_connected := false }
    else service_live env i.2
  else service_live env p.2

/-- The function `publish_to_topic`, lines 171-201. -/
def publish_to_topic (env : Env) (topic payload : String) (s : State) : Int × State :=
  mqtt_publish env topic payload s

/-- The function `publish_sensor_data`, lines 203-224. -/
def publish_sensor_data (env : Env) (reading : sensor_reading) (s : State) : State :=
  let s1 := (publish_to_topic env TOPIC_TEMPERATURE
    (temperature_payload reading.temperature_mc) s).2
  let s2 := (publish_to_topic env TOPIC_HUMIDITY (unsigned_payload reading.humidity) s1).2
  (publish_to_topic env TOPIC_PRESSURE (unsigned_payload reading.pressure) s2).2

/-! ## mqtt_client.c: the thread loop -/

/-- Outcome of one `zbus_sub_wait_msg`: a message of one of the two observed channels, a
message of some other channel, or a return code (0 excluded by the first three). -/
inductive BusWait where
  | net_state_chan (msg : net_state)
  | sensor_data_chan (msg : sensor_reading)
  | other_chan
  | failed (rc : Int)
deriving DecidableEq, Repr

/-- First half of the loop body of `mqtt_thread`, lines 238-259: acting on the wait. -/
def mqtt_thread_dispatch (env : Env) (w : BusWait) (s : State) : State :=
  match w with
  | BusWait.net_state_chan msg =>
    let s1 := { s with net_connected := msg.is_connected }
    if s1.net_connected = false ∧ s1.mqtt_connected = true then
      let d := mqtt_disconnect env s1
      { d.2 with mqtt_connected := false }
    else s1
  | BusWait.sensor_data_chan msg =>
    if s.mqtt_connected = true then publish_sensor_data env msg s else s
  | BusWait.other_chan => s
  | BusWait.failed rc =>
    if rc = 0 then s
    else if rc = -EAGAIN ∨ rc = -ENOMSG then
      if s.mqtt_connected = true then service_mqtt_connection env s else s
    else s

/-- Second half of the loop body of `mqtt_thread`, lines 261-269: reconnecting. -/
def mqtt_thread_reconnect (cfg : Config) (env : Env) (fuel : Nat) (s : State) : Option State :=
  if s.net_connected = true ∧ s.mqtt_connected = false then
    match mqtt_connect_to_broker cfg env fuel s with
    | none => none
    | some r => if r.1 < 0 then some (k_sleep MQTT_CONNECT_FAILURE_BACKOFF_SEC r.2) else some r.2
  else some s

/-- One pass through the loop of `mqtt_thread`, lines 238-269. -/
def mqtt_thread_iter (cfg : Config) (env : Env) (fuel : Nat) (w : BusWait) (s : State) :
    Option State :=
  mqtt_thread_reconnect cfg env fuel (mqtt_thread_dispatch env w s)

/-- The loop of `mqtt_thread` over a sequence of waits; `fuel` bounds each retry loop. -/
def mqtt_thread_run (cfg : Config) (env : Env) (fuel : Nat) : List BusWait → State → Option State
  | [], s => some s
  | w :: ws, s =>
    match mqtt_thread_iter cfg env fuel w s with
    | none => none
    | some s1 => mqtt_thread_run cfg env fuel ws s1

/-! ## Observations on traces and wait sequences -/

/-- Link state carried by the last `net_state_chan` message of a sequence, `init` if none. -/
def last_link (init : Option Bool) (ws : List BusWait) : Option Bool :=
  ws.foldl (fun acc w =>
    match w with
    | BusWait.net_state_chan msg => some msg.is_connected
    | _ => acc) init

def is_connect : Call → Bool
  | Call.mqtt_connect _ => true
  | _ => false

def is_connect_ok : Call → Bool
  | Call.mqtt_connect rc => decide (rc = 0)
  | _ => false

def is_disconnect : Call → Bool
  | Call.mqtt_disconnect => true
  | _ => false

def is_publish : Call → Bool
  | Call.mqtt_publish _ _ _ => true
  | _ => false

/-- Following the transport handle along a list of calls: `open_` tells whether a handle is
open; a successful `mqtt_connect` while one is open is a leak (`none`). -/
def handle_after : Bool → List Call → Option Bool
  | open_, [] => some open_
  | open_, Call.mqtt_connect rc :: cs =>
    if rc = 0 then (if open_ = true then none else handle_after true cs)
    else handle_after open_ cs
  | _, Call.mqtt_disconnect :: cs => handle_after false cs
  | open_, _ :: cs => handle_after open_ cs

/-! ## Concrete inputs -/

/-- An environment in which every call succeeds and no event is delivered. -/
def env_quiet : Env := fun _ => { rc := 0, pollin := false, events := [] }

/-- A bus on which every publication succeeds. -/
def bus_ok : Nat → Int := fun _ => 0

/-- The reading of the publish scenario. -/
def reading_scenario : sensor_reading :=
  { timestamp_ms := 0, temperature_mc := 23456, humidity := 55500, pressure := 101325 }

/-- A session with link and broker both up. -/
def state_connected : State := { mqtt_connected := true, net_connected := true, trace := [] }

/-- An environment in which every call fails with return code `-1`. -/
def env_refuse : Env := fun _ => { rc := -1, pollin := false, events := [] }

/-- A session with the link up and no broker session. -/
def state_link_up : State := { mqtt_connected := false, net_connected := true, trace := [] }

/-- A build with at most three connect attempts and a well-formed broker address. -/
def cfg_three : Config := { MQTT_MAX_RETRY_COUNT := 3, broker_addr_valid := true }

/-- An environment for a session started from an empty trace: the socket poll of the
servicing step (call 0) fails; the connect attempt that follows is accepted (call 2 opens
the transport, call 3 reports input, call 4 delivers a successful CONNACK). -/
def env_poll_error : Env := fun k =>
  if k = 0 then { rc := -1, pollin := false, events := [] }
  else if k = 3 then { rc := 1, pollin := true, events := [] }
  else if k = 4 then
    { rc := 0, pollin := false, events := [{ type := mqtt_evt_type.CONNACK, result := 0 }] }
  else { rc := 0, pollin := false, events := [] }

/-- An environment for a session started from an empty trace in which the first connect
attempt is accepted: call 1 opens the transport, call 2 reports input, call 3 delivers a
successful CONNACK. -/
def env_accept : Env := fun k =>
  if k = 2 then { rc := 1, pollin := true, events := [] }
  else if k = 3 then
    { rc := 0, pollin := false, events := [{ type := mqtt_evt_type.CONNACK, result := 0 }] }
  else { rc := 0, pollin := false, events := [] }

/-- An environment in which the transport opens and no acknowledgment ever arrives: every
call returns 0, so every poll for the CONNACK times out. -/
def env_silent : Env := fun _ => { rc := 0, pollin := false, events := [] }

/-- The session reached from thread start under `env_accept` once the link comes up. -/
def state_accepted : State :=
  { mqtt_connected := true, net_connected := true,
    trace := [Call.mqtt_client_init, Call.mqtt_connect 0, Call.zsock_poll 5000 1,
      Call.mqtt_input 0] }

/-! ## Lemmas on the decimal conversions -/

theorem digitVal_digitChar (d : Nat) (h : d < 10) : digitVal (digitChar d) = some d := by
  interval_cases d <;> decide

theorem digitChar_ne_point (d : Nat) : digitChar d ≠ '.' := by
  unfold digitChar
  split <;> decide

theorem digitChar_ne_minus (d : Nat) : digitChar d ≠ '-' := by
  unfold digitChar
  split <;> decide

theorem decDigitsAux_fuel (n : Nat) :
    ∀ f1 f2 : Nat, n ≤ f1 → n ≤ f2 → decDigitsAux f1 n = decDigitsAux f2 n := by
  induction n using Nat.strong_induction_on with
  | _ n ih =>
    intro f1 f2 h1 h2
    by_cases hn : n < 10
    · cases f1 <;> cases f2 <;> simp [decDigitsAux, hn, Nat.mod_eq_of_lt hn]
    · obtain ⟨a, rfl⟩ : ∃ a, f1 = a + 1 := ⟨f1 - 1, by omega⟩
      obtain ⟨b, rfl⟩ : ∃ b, f2 = b + 1 := ⟨f2 - 1, by omega⟩
      simp only [decDigitsAux, hn, if_false]
      rw [ih (n / 10) (by omega) a b (by omega) (by omega)]

theorem fmt_u_eq (n : Nat) :
    fmt_u n = if n < 10 then [digitChar n] else fmt_u (n / 10) ++ [digitChar (n % 10)] := by
  by_cases hn : n < 10
  · cases n <;> simp [fmt_u, decDigitsAux, hn]
  · obtain ⟨a, rfl⟩ : ∃ a, n = a + 1 := ⟨n - 1, by omega⟩
    simp only [fmt_u, decDigitsAux, hn, if_false]
    rw [decDigitsAux_fuel ((a + 1) / 10) a ((a + 1) / 10) (by omega) (le_refl _)]

theorem fmt_u_ne_nil (n : Nat) : fmt_u n ≠ [] := by
  rw [fmt_u_eq]
  split <;> simp

theorem fmt_u_digits (n : Nat) : ∀ c ∈ fmt_u n, ∃ d, d < 10 ∧ c = digitChar d := by
  induction n using Nat.strong_induction_on with
  | _ n ih =>
    intro c hc
    rw [fmt_u_eq] at hc
    by_cases hn : n < 10
    · simp only [hn, if_true, List.mem_singleton] at hc
      exact ⟨n, hn, hc⟩
    · simp only [hn, if_false, List.mem_append, List.mem_singleton] at hc
      rcases hc with hc | hc
      · exact ih (n / 10) (by omega) c hc
      · exact ⟨n % 10, by omega, hc⟩

theorem fmt_u_length (k : Nat) : ∀ n : Nat, n < 10 ^ (k + 1) → (fmt_u n).length ≤ k + 1 := by
  induction k with
  | zero =>
    intro n hn
    rw [fmt_u_eq]
    simp only [zero_add, pow_one] at hn
    simp [hn]
  | succ k ih =>
    intro n hn
    rw [fmt_u_eq]
    by_cases h10 : n < 10
    · simp [h10]
    · simp only [h10, if_false, List.length_append, List.length_singleton]
      have : n / 10 < 10 ^ (k + 1) := by
        rw [Nat.div_lt_iff_lt_mul (by decide)]
        calc n < 10 ^ (k + 1 + 1) := hn
          _ = 10 ^ (k + 1) * 10 := by ring
      have := ih (n / 10) this
      omega

theorem parse_fold_fmt_u (n : Nat) : (fmt_u n).foldl parseStep (some 0) = some n := by
  induction n using Nat.strong_induction_on with
  | _ n ih =>
    rw [fmt_u_eq]
    by_cases hn : n < 10
    · simp [hn, parseStep, digitVal_digitChar n hn]
    · simp only [hn, if_false, List.foldl_append, List.foldl_cons, List.foldl_nil]
      rw [ih (n / 10) (by omega)]
      simp only [parseStep, digitVal_digitChar (n % 10) (by omega)]
      congr 1
      omega

theorem parseDigits_fmt_u (n : Nat) : parseDigits (fmt_u n) = some n := by
  simp [parseDigits, fmt_u_ne_nil, parse_fold_fmt_u]

/-- The three digits written by `%03u` (and by `%03d` on a value that is not negative)
for a value below 1000. -/
theorem zeroPad_three (n : Nat) (h : n < 1000) :
    zeroPad 3 (fmt_u n) = [digitChar (n / 100), digitChar (n / 10 % 10), digitChar (n % 10)] := by
  by_cases h1 : n < 10
  · rw [fmt_u_eq]
    have : n / 100 = 0 := by omega
    have : n / 10 % 10 = 0 := by omega
    have : n % 10 = n := by omega
    simp [h1, zeroPad, *]
    rfl
  · by_cases h2 : n < 100
    · rw [fmt_u_eq, fmt_u_eq (n / 10)]
      have : n / 10 < 10 := by omega
      have : n / 100 = 0 := by omega
      have : n / 10 % 10 = n / 10 := by omega
      simp [h1, zeroPad, *]
      rfl
    · rw [fmt_u_eq, fmt_u_eq (n / 10), fmt_u_eq (n / 10 / 10)]
      have : ¬ n / 10 < 10 := by omega
      have : n / 10 / 10 < 10 := by omega
      have : n / 10 / 10 = n / 100 := by omega
      have : n / 100 < 10 := by omega
      simp [h1, zeroPad, *]

theorem parseDigits_three (n : Nat) (h : n < 1000) :
    parseDigits [digitChar (n / 100), digitChar (n / 10 % 10), digitChar (n % 10)] = some n := by
  simp only [parseDigits, List.foldl_cons, List.foldl_nil, parseStep,
    digitVal_digitChar (n / 100) (by omega), digitVal_digitChar (n / 10 % 10) (by omega),
    digitVal_digitChar (n % 10) (by omega)]
  simp
  omega

/-! ## Lemmas on the payloads -/

theorem c_div_mod_natAbs (t : Int) :
    c_div t 1000 = (if t < 0 then -((t.natAbs / 1000 : Nat) : Int) else ((t.natAbs / 1000 : Nat) : Int))
    ∧ c_mod t 1000
      = (if t < 0 then -((t.natAbs % 1000 : Nat) : Int) else ((t.natAbs % 1000 : Nat) : Int)) := by
  obtain ⟨m, rfl | rfl⟩ := Int.eq_nat_or_neg t
  · have h : ¬ ((m : Int) < 0) := by omega
    simp only [c_div, c_mod, h, if_false, Int.natAbs_ofNat]
    exact ⟨(Int.ofNat_tdiv m 1000).symm, (Int.ofNat_tmod m 1000).symm⟩
  · by_cases hm : m = 0
    · subst hm
      simp [c_div, c_mod]
    · have h : (-(m : Int) < 0) := by omega
      have hd : Int.tdiv (-(m : Int)) 1000 = -((m / 1000 : Nat) : Int) := by
        rw [Int.neg_tdiv]
        exact congrArg Neg.neg (Int.ofNat_tdiv m 1000).symm
      have hr : Int.tmod (-(m : Int)) 1000 = -((m % 1000 : Nat) : Int) := by
        rw [Int.tmod_def, hd]
        omega
      simp only [c_div, c_mod, h, if_true, Int.natAbs_neg, Int.natAbs_ofNat]
      exact ⟨hd, hr⟩

theorem takeWhile_point (l r : List Char) (h : ∀ c ∈ l, c ≠ '.') :
    (l ++ '.' :: r).takeWhile (fun c => c ≠ '.') = l
    ∧ (l ++ '.' :: r).dropWhile (fun c => c ≠ '.') = '.' :: r := by
  induction l with
  | nil => simp
  | cons a l ih =>
    have ha : a ≠ '.' := h a (List.mem_cons_self a l)
    have := ih (fun c hc => h c (List.mem_cons_of_mem a hc))
    simpa [ha] using this

theorem fmt_u_no_point (n : Nat) : ∀ c ∈ fmt_u n, c ≠ '.' := by
  intro c hc
  obtain ⟨d, _, rfl⟩ := fmt_u_digits n c hc
  exact digitChar_ne_point d

theorem fmt_u_head (n : Nat) (r : List Char) : (fmt_u n ++ r).head? ≠ some '-' := by
  have hne := fmt_u_ne_nil n
  have hd := fmt_u_digits n
  cases h : fmt_u n with
  | nil => exact absurd h hne
  | cons c cs =>
    rw [h] at hd
    obtain ⟨d, _, rfl⟩ := hd c (List.mem_cons_self c cs)
    simp [digitChar_ne_minus d]

/-- Reading back the rendering of `m` thousandths gives `m`, negated under a minus sign. -/
theorem parseMilli_milliChars (neg : Bool) (m : Nat) :
    parseMilli (String.mk (milliChars neg m)) = some (if neg = true then -(m : Int) else (m : Int)) := by
  have hF : m % 1000 < 1000 := Nat.mod_lt _ (by decide)
  have hfrac : parseDigits (fracDigits m) = some (m % 1000) := parseDigits_three (m % 1000) hF
  have hlen : (fracDigits m).length = 3 := rfl
  have htd := takeWhile_point (fmt_u (m / 1000)) (fracDigits m) (fmt_u_no_point _)
  cases neg with
  | true =>
    simp only [parseMilli, milliChars, if_true, List.singleton_append, List.head?_cons,
      List.tail_cons, htd.1, htd.2, hlen, parseDigits_fmt_u, hfrac]
    congr 2
    omega
  | false =>
    have hh := fmt_u_head (m / 1000) ('.' :: fracDigits m)
    simp only [parseMilli, milliChars, Bool.false_eq_true, if_false, List.nil_append, hh,
      htd.1, htd.2, hlen, if_true, parseDigits_fmt_u, hfrac]
    congr 1
    omega

theorem milliChars_length (neg : Bool) (m : Nat) (h : m < 10 ^ 13) :
    (milliChars neg m).length ≤ 15 := by
  have h1 : (fmt_u (m / 1000)).length ≤ 10 :=
    fmt_u_length 9 (m / 1000) (by rw [Nat.div_lt_iff_lt_mul (by decide)]; omega)
  cases neg <;> simp [milliChars, fracDigits] <;> omega

theorem snprintk32_milliChars (neg : Bool) (m : Nat) (h : m < 10 ^ 13) :
    snprintk32 (milliChars neg m) = String.mk (milliChars neg m) := by
  have := milliChars_length neg m h
  rw [snprintk32, List.take_of_length_le (by omega)]

theorem fmt_d_natCast (n : Nat) : fmt_d (n : Int) = fmt_u n := by
  have h : ¬ ((n : Int) < 0) := by omega
  simp only [fmt_d, h, if_false, Int.natAbs_ofNat]

theorem fmt_d_neg_natCast (n : Nat) (hn : 0 < n) : fmt_d (-(n : Int)) = '-' :: fmt_u n := by
  have h : (-(n : Int) < 0) := by omega
  simp only [fmt_d, h, if_true, Int.natAbs_neg, Int.natAbs_ofNat]

theorem fmt_03d_natCast (n : Nat) (hn : n < 1000) :
    fmt_03d (n : Int) = [digitChar (n / 100), digitChar (n / 10 % 10), digitChar (n % 10)] := by
  have h : ¬ ((n : Int) < 0) := by omega
  simp only [fmt_03d, h, if_false, Int.natAbs_ofNat]
  exact zeroPad_three n hn

/-- The temperature payload is the rendering of the magnitude, signed when negative. -/
theorem temperature_payload_eq (t : Int) (hlo : INT32_MIN ≤ t) (hhi : t ≤ INT32_MAX) :
    temperature_payload t = String.mk (milliChars (decide (t < 0)) t.natAbs) := by
  have hm : t.natAbs < 10 ^ 13 := by
    simp only [INT32_MIN, INT32_MAX] at hlo hhi
    omega
  rw [← snprintk32_milliChars _ _ hm]
  obtain ⟨hd, hr⟩ := c_div_mod_natAbs t
  have hF : t.natAbs % 1000 < 1000 := Nat.mod_lt _ (by decide)
  unfold temperature_payload
  simp only [hd, hr, milliChars, fracDigits]
  generalize t.natAbs % 1000 = F at hF ⊢
  generalize t.natAbs / 1000 = I
  by_cases ht : t < 0
  · have hfrac : (if -(F : Int) < 0 then - -(F : Int) else -(F : Int)) = (F : Int) := by
      split <;> omega
    simp only [ht, if_true, true_and, decide_True, hfrac, fmt_03d_natCast F hF]
    by_cases hI : I = 0
    · subst hI
      have h0 : fmt_u 0 = ['0'] := by decide
      simp [h0]
    · have hne : ¬ (-(I : Int) = 0) := by omega
      simp only [hne, if_false, fmt_d_neg_natCast I (by omega)]
      rfl
  · have hfrac : (if (F : Int) < 0 then -(F : Int) else (F : Int)) = (F : Int) := by
      split <;> omega
    simp only [ht, if_false, false_and, decide_False, hfrac, fmt_03d_natCast F hF,
      fmt_d_natCast, Bool.false_eq_true, List.nil_append]

theorem unsigned_payload_eq (v : Nat) (h : v ≤ UINT32_MAX) :
    unsigned_payload v = String.mk (milliChars false v) := by
  have hm : v < 10 ^ 13 := by
    simp only [UINT32_MAX] at h
    omega
  rw [← snprintk32_milliChars _ _ hm]
  have hz := zeroPad_three (v % 1000) (Nat.mod_lt _ (by decide))
  simp [unsigned_payload, fmt_03u, milliChars, fracDigits, hz]

/-! ## Lemmas on the collaborator calls -/

theorem handler_trace (e : mqtt_evt) (s : State) : (mqtt_event_handler e s).trace = s.trace := by
  unfold mqtt_event_handler
  split <;> (try split) <;> rfl

theorem handler_net (e : mqtt_evt) (s : State) :
    (mqtt_event_handler e s).net_connected = s.net_connected := by
  unfold mqtt_event_handler
  split <;> (try split) <;> rfl

theorem deliver_trace (evts : List mqtt_evt) :
    ∀ s : State, (deliver evts s).trace = s.trace := by
  induction evts with
  | nil => intro s; rfl
  | cons e es ih =>
    intro s
    simp only [deliver, List.foldl_cons] at ih ⊢
    rw [ih, handler_trace]

theorem deliver_net (evts : List mqtt_evt) :
    ∀ s : State, (deliver evts s).net_connected = s.net_connected := by
  induction evts with
  | nil => intro s; rfl
  | cons e es ih =>
    intro s
    simp only [deliver, List.foldl_cons] at ih ⊢
    rw [ih, handler_net]

theorem client_call_trace (env : Env) (mk : Int → Call) (s : State) :
    (client_call env mk s).2.trace = s.trace ++ [mk (env s.trace.length).rc] := by
  simp [client_call, deliver_trace]

theorem client_call_net (env : Env) (mk : Int → Call) (s : State) :
    (client_call env mk s).2.net_connected = s.net_connected := by
  simp [client_call, deliver_net]

theorem client_call_rc (env : Env) (mk : Int → Call) (s : State) :
    (client_call env mk s).1 = (env s.trace.length).rc := rfl

@[simp] theorem k_sleep_trace (n : Nat) (s : State) :
    (k_sleep n s).trace = s.trace ++ [Call.k_sleep n] := rfl

@[simp] theorem k_sleep_net (n : Nat) (s : State) :
    (k_sleep n s).net_connected = s.net_connected := rfl

@[simp] theorem k_sleep_mqtt (n : Nat) (s : State) :
    (k_sleep n s).mqtt_connected = s.mqtt_connected := rfl

@[simp] theorem mqtt_client_init_trace (s : State) :
    (mqtt_client_init s).trace = s.trace ++ [Call.mqtt_client_init] := rfl

@[simp] theorem mqtt_client_init_net (s : State) :
    (mqtt_client_init s).net_connected = s.net_connected := rfl

@[simp] theorem zsock_poll_trace (env : Env) (t : Nat) (s : State) :
    (zsock_poll env t s).2.trace = s.trace ++ [Call.zsock_poll t (env s.trace.length).rc] := rfl

@[simp] theorem zsock_poll_net (env : Env) (t : Nat) (s : State) :
    (zsock_poll env t s).2.net_connected = s.net_connected := rfl

@[simp] theorem zsock_poll_mqtt (env : Env) (t : Nat) (s : State) :
    (zsock_poll env t s).2.mqtt_connected = s.mqtt_connected := rfl

@[simp] theorem zsock_poll_rc (env : Env) (t : Nat) (s : State) :
    (zsock_poll env t s).1.1 = (env s.trace.length).rc := rfl

/-- What one pass of the retry loop adds to the trace. -/
theorem connect_attempt_spec (env : Env) (k : Nat) (s : State) :
    (connect_attempt env k s).2.net_connected = s.net_connected
    ∧ ((connect_attempt env k s).1 = AttemptResult.accepted →
        (connect_attempt env k s).2.mqtt_connected = true)
    ∧ ∃ cs, (connect_attempt env k s).2.trace = s.trace ++ cs
      ∧ cs.countP is_connect = 1
      ∧ cs.countP is_publish = 0
      ∧ cs.countP is_connect_ok = cs.countP is_disconnect
          + (if (connect_attempt env k s).1 = AttemptResult.accepted then 1 else 0)
      ∧ handle_after false cs
          = some (decide ((connect_attempt env k s).1 = AttemptResult.accepted)) := by
  unfold connect_attempt
  simp only [mqtt_connect, mqtt_input, mqtt_disconnect]
  refine ⟨?_, ?_, ?_⟩
  · split_ifs <;> simp [client_call_net]
  · split_ifs <;> simp_all
  · split_ifs <;>
      exact ⟨_, by simp only [client_call_trace, zsock_poll_trace, k_sleep_trace,
          mqtt_client_init_trace, List.append_assoc]; rfl,
        by simp_all [is_connect, is_publish, is_connect_ok, is_disconnect, handle_after,
          client_call_rc]⟩

theorem handle_after_append (a b : List Call) :
    ∀ o : Bool, handle_after o (a ++ b) = (handle_after o a).bind (fun o1 => handle_after o1 b) := by
  induction a with
  | nil => intro o; simp [handle_after]
  | cons c cs ih =>
    intro o
    rw [List.cons_append]
    cases c <;> simp only [handle_after, ih]
    split_ifs <;> simp

/-- What a run of the retry loop that comes to an end adds to the trace. -/
theorem connect_loop_spec (cfg : Config) (env : Env) :
    ∀ (fuel attempt : Nat) (s : State) (r : Int × State),
      connect_loop cfg env fuel attempt s = some r →
      r.2.net_connected = s.net_connected
      ∧ (r.1 = 0 ∨ r.1 = -ETIMEDOUT)
      ∧ (r.1 = 0 → r.2.mqtt_connected = true)
      ∧ ∃ cs, r.2.trace = s.trace ++ cs
        ∧ cs.countP is_publish = 0
        ∧ cs.countP is_connect_ok = cs.countP is_disconnect + (if r.1 = 0 then 1 else 0)
        ∧ handle_after false cs = some (decide (r.1 = 0)) := by
  intro fuel
  induction fuel with
  | zero =>
    intro attempt s r h
    unfold connect_loop at h
    split_ifs at h with hc
    simp only [Option.some.injEq] at h
    subst h
    exact ⟨rfl, Or.inr rfl, by simp [ETIMEDOUT], [], by simp, rfl, by simp [ETIMEDOUT],
      by simp [handle_after, ETIMEDOUT]⟩
  | succ fuel ih =>
    intro attempt s r h
    unfold connect_loop at h
    split_ifs at h with hc
    · obtain ⟨hnet, hacc, cs, htr, hcon, hpub, hbal, hh⟩ := connect_attempt_spec env attempt s
      simp only at h
      split_ifs at h with ha
      · simp only [Option.some.injEq] at h
        subst h
        simp only [ha, if_true, decide_True] at hbal hh
        exact ⟨hnet, Or.inl rfl, fun _ => hacc ha, cs, htr, hpub, by simpa using hbal,
          by simpa using hh⟩
      · obtain ⟨hnet2, hrc, hmq, cs2, htr2, hpub2, hbal2, hh2⟩ := ih _ _ _ h
        simp only [ha, if_false, decide_False, Nat.add_zero] at hbal hh
        refine ⟨hnet2.trans hnet, hrc, hmq, cs ++ cs2, ?_, ?_, ?_, ?_⟩
        · rw [htr2, htr, List.append_assoc]
        · simp [List.countP_append, hpub, hpub2]
        · simp only [List.countP_append, hbal, hbal2]
          omega
        · rw [handle_after_append, hh]
          exact hh2
    · simp only [Option.some.injEq] at h
      subst h
      exact ⟨rfl, Or.inr rfl, by simp [ETIMEDOUT], [], by simp, rfl, by simp [ETIMEDOUT],
        by simp [handle_after, ETIMEDOUT]⟩

/-- What a call of `mqtt_connect_to_broker` that returns adds to the trace. -/
theorem mqtt_connect_to_broker_spec (cfg : Config) (env : Env) (fuel : Nat) (s : State)
    (r : Int × State) (h : mqtt_connect_to_broker cfg env fuel s = some r) :
    r.2.net_connected = s.net_connected
    ∧ (r.1 = 0 ∨ r.1 < 0)
    ∧ (r.1 = 0 → r.2.mqtt_connected = true)
    ∧ ∃ cs, r.2.trace = s.trace ++ cs
      ∧ cs.countP is_publish = 0
      ∧ cs.countP is_connect_ok = cs.countP is_disconnect + (if r.1 = 0 then 1 else 0)
      ∧ handle_after false cs = some (decide (r.1 = 0)) := by
  unfold mqtt_connect_to_broker at h
  split_ifs at h with hv
  · simp only [Option.some.injEq] at h
    subst h
    exact ⟨rfl, Or.inr (show -EINVAL < 0 by decide), by simp [EINVAL], [], by simp, rfl,
      by simp [EINVAL], by simp [handle_after, EINVAL]⟩
  · obtain ⟨h1, h2, h3, h4⟩ := connect_loop_spec cfg env fuel 0 s r h
    refine ⟨h1, ?_, h3, h4⟩
    rcases h2 with h2 | h2
    · exact Or.inl h2
    · exact Or.inr (by rw [h2]; decide)

/-! ## Payload formatting: the claims -/

theorem temperature_payload_decimal3 (t : Int) (hlo : INT32_MIN ≤ t) (hhi : t ≤ INT32_MAX) :
    temperature_payload t = decimal3 t :=
  temperature_payload_eq t hlo hhi

theorem unsigned_payload_decimal3 (v : Nat) (h : v ≤ UINT32_MAX) :
    unsigned_payload v = decimal3 (v : Int) := by
  have hn : ¬ ((v : Int) < 0) := by omega
  rw [unsigned_payload_eq v h]
  simp only [decimal3, hn, decide_False, Int.natAbs_ofNat]

theorem parseMilli_decimal3 (t : Int) : parseMilli (decimal3 t) = some t := by
  rw [decimal3, parseMilli_milliChars]
  by_cases ht : t < 0
  · simp only [ht, decide_True, if_true]
    congr 1
    omega
  · simp only [ht, decide_False, Bool.false_eq_true, if_false]
    congr 1
    omega

/-- C2: for every 32-bit signed `temperature_mc`, reading the temperature payload built by
`publish_sensor_data` as a signed decimal with three fractional digits gives back
`temperature_mc` (the value in thousandths). -/
theorem temperature_payload_roundtrip (t : Int) (hlo : INT32_MIN ≤ t) (hhi : t ≤ INT32_MAX) :
    parseMilli (temperature_payload t) = some t := by
  rw [temperature_payload_decimal3 t hlo hhi, parseMilli_decimal3]

theorem temperature_payload_roundtrip_witness :
    parseMilli (temperature_payload (-2147483648)) = some (-2147483648) :=
  temperature_payload_roundtrip (-2147483648) (by decide) (by decide)

/-- C3: for `-999 ≤ temperature_mc ≤ -1` the temperature payload is exactly `-0.` followed
by the three zero-padded digits of the absolute value; the minus sign is its first
character and occurs nowhere else. -/
theorem temperature_payload_near_zero (t : Int) (hlo : -999 ≤ t) (hhi : t ≤ -1) :
    temperature_payload t
      = String.mk ['-', '0', '.', digitChar (t.natAbs / 100), digitChar (t.natAbs / 10 % 10),
          digitChar (t.natAbs % 10)]
    ∧ (temperature_payload t).data.head? = some '-'
    ∧ (temperature_payload t).data.tail.all (fun c => c ≠ '-') = true := by
  have h1 : INT32_MIN ≤ t := by simp only [INT32_MIN]; omega
  have h2 : t ≤ INT32_MAX := by simp only [INT32_MAX]; omega
  have ht : t < 0 := by omega
  have hI : t.natAbs / 1000 = 0 := by omega
  have hF : t.natAbs % 1000 = t.natAbs := by omega
  have h0 : fmt_u 0 = ['0'] := by decide
  have key : temperature_payload t
      = String.mk ['-', '0', '.', digitChar (t.natAbs / 100), digitChar (t.natAbs / 10 % 10),
          digitChar (t.natAbs % 10)] := by
    rw [temperature_payload_eq t h1 h2]
    simp [milliChars, fracDigits, ht, hI, hF, h0]
  refine ⟨key, ?_, ?_⟩
  · rw [key]
    rfl
  · rw [key]
    simp [digitChar_ne_minus]

theorem temperature_payload_near_zero_witness :
    temperature_payload (-5) = "-0.005"
    ∧ (temperature_payload (-5)).data.head? = some '-'
    ∧ (temperature_payload (-5)).data.tail.all (fun c => c ≠ '-') = true :=
  temperature_payload_near_zero (-5) (by decide) (by decide)

/-- C4: a reading handled while the session is connected makes exactly three transport
publishes, in the order temperature, humidity, pressure, on the three fixed topics; each
payload is the field divided by 1000 as a decimal with exactly three fractional digits, and
reading it back gives the field; the reading 23456 / 55500 / 101325 gives the payloads
`23.456`, `55.500` and `101.325`. -/
theorem publish_sensor_data_three_publishes (env : Env) (r : sensor_reading) (s : State)
    (hc : s.mqtt_connected = true)
    (ht : INT32_MIN ≤ r.temperature_mc ∧ r.temperature_mc ≤ INT32_MAX)
    (hh : r.humidity ≤ UINT32_MAX) (hp : r.pressure ≤ UINT32_MAX) :
    (∃ rc1 rc2 rc3 : Int,
      (mqtt_thread_dispatch env (BusWait.sensor_data_chan r) s).trace
        = s.trace ++ [Call.mqtt_publish "sensors/temperature" (decimal3 r.temperature_mc) rc1,
            Call.mqtt_publish "sensors/humidity" (decimal3 r.humidity) rc2,
            Call.mqtt_publish "sensors/pressure" (decimal3 r.pressure) rc3])
    ∧ parseMilli (decimal3 r.temperature_mc) = some r.temperature_mc
    ∧ parseMilli (decimal3 r.humidity) = some (r.humidity : Int)
    ∧ parseMilli (decimal3 r.pressure) = some (r.pressure : Int)
    ∧ decimal3 23456 = "23.456" ∧ decimal3 55500 = "55.500"
    ∧ decimal3 101325 = "101.325" := by
  refine ⟨?_, parseMilli_decimal3 _, parseMilli_decimal3 _, parseMilli_decimal3 _, ?_⟩
  · refine ⟨(env s.trace.length).rc, (env (s.trace.length + 1)).rc,
      (env (s.trace.length + 1 + 1)).rc, ?_⟩
    simp only [mqtt_thread_dispatch, hc, if_true, publish_sensor_data, publish_to_topic,
      mqtt_publish, client_call_trace, List.length_append, List.length_singleton,
      temperature_payload_decimal3 r.temperature_mc ht.1 ht.2,
      unsigned_payload_decimal3 r.humidity hh, unsigned_payload_decimal3 r.pressure hp,
      TOPIC_TEMPERATURE, TOPIC_HUMIDITY, TOPIC_PRESSURE, List.append_assoc,
      List.singleton_append]
    rfl
  · decide

theorem publish_sensor_data_three_publishes_witness :
    ∃ rc1 rc2 rc3 : Int,
      (mqtt_thread_dispatch env_quiet (BusWait.sensor_data_chan reading_scenario)
          state_connected).trace
        = state_connected.trace
          ++ [Call.mqtt_publish "sensors/temperature" (decimal3 reading_scenario.temperature_mc) rc1,
            Call.mqtt_publish "sensors/humidity" (decimal3 reading_scenario.humidity) rc2,
            Call.mqtt_publish "sensors/pressure" (decimal3 reading_scenario.pressure) rc3] :=
  (publish_sensor_data_three_publishes env_quiet reading_scenario state_connected rfl
    ⟨by decide, by decide⟩ (by decide) (by decide)).1

/-! ## Sensor scaling: the claims -/

theorem scale_q31_floor (raw shift : Int) (hraw : INT32_MIN ≤ raw ∧ raw ≤ INT32_MAX)
    (hs : 0 ≤ 31 - shift ∧ 31 - shift ≤ 63) :
    scale_q31 raw shift = some (Int.fdiv (raw * 1000) (2 ^ (31 - shift).toNat)) := by
  have h1 : INT64_MIN ≤ raw * 1000 := by
    simp only [INT32_MIN, INT32_MAX, INT64_MIN] at *
    omega
  have h2 : raw * 1000 ≤ INT64_MAX := by
    simp only [INT32_MIN, INT32_MAX, INT64_MAX] at *
    omega
  have hpos : (0 : Int) ≤ 2 ^ (31 - shift).toNat := by positivity
  simp only [scale_q31, h1, h2, hs.1, hs.2, and_self, if_true, Option.some.injEq]
  rw [Int.fdiv_eq_ediv _ hpos, ← Int.shiftRight_eq, Int.shiftRight_eq_div_pow]
  norm_cast

theorem cast_int32_fits (q : Int) (h : INT32_MIN ≤ q ∧ q ≤ INT32_MAX) : cast_int32 q = q := by
  simp only [INT32_MIN, INT32_MAX] at h
  simp only [cast_int32]
  omega

theorem cast_uint32_fits (q : Int) (h : 0 ≤ q ∧ q ≤ (UINT32_MAX : Int)) :
    cast_uint32 q = q.toNat := by
  simp only [UINT32_MAX] at h
  simp only [cast_uint32]
  congr 1
  omega

/-- C9, as the code has it: for a 32-bit raw value and a shift count `31 - shift` in
`0..63`, each stored channel value is `raw * 1000` arithmetically shifted right, which is
the floor of `raw * 1000 / 2^(31 - shift)` (rounded toward minus infinity, never to
nearest) whenever that floor fits the destination field; for a raw value that is not
negative the floor is also the quotient truncated toward zero. -/
theorem decode_is_floor (raw shift : Int) (hraw : INT32_MIN ≤ raw ∧ raw ≤ INT32_MAX)
    (hs : 0 ≤ 31 - shift ∧ 31 - shift ≤ 63) :
    (INT32_MIN ≤ Int.fdiv (raw * 1000) (2 ^ (31 - shift).toNat)
        ∧ Int.fdiv (raw * 1000) (2 ^ (31 - shift).toNat) ≤ INT32_MAX →
      decode_temperature raw shift = some (Int.fdiv (raw * 1000) (2 ^ (31 - shift).toNat)))
    ∧ (0 ≤ Int.fdiv (raw * 1000) (2 ^ (31 - shift).toNat)
        ∧ Int.fdiv (raw * 1000) (2 ^ (31 - shift).toNat) ≤ (UINT32_MAX : Int) →
      decode_pressure raw shift = some (Int.fdiv (raw * 1000) (2 ^ (31 - shift).toNat)).toNat
      ∧ decode_humidity raw shift
        = some (Int.fdiv (raw * 1000) (2 ^ (31 - shift).toNat)).toNat)
    ∧ Int.fdiv (raw * 1000) (2 ^ (31 - shift).toNat) * 2 ^ (31 - shift).toNat ≤ raw * 1000
    ∧ raw * 1000 < (Int.fdiv (raw * 1000) (2 ^ (31 - shift).toNat) + 1) * 2 ^ (31 - shift).toNat
    ∧ (0 ≤ raw → Int.fdiv (raw * 1000) (2 ^ (31 - shift).toNat)
        = Int.tdiv (raw * 1000) (2 ^ (31 - shift).toNat)) := by
  have hsc := scale_q31_floor raw shift hraw hs
  have hpos : (0 : Int) < 2 ^ (31 - shift).toNat := by positivity
  refine ⟨?_, ?_, ?_, ?_, ?_⟩
  · intro hfit
    simp only [decode_temperature, hsc, Option.map_some', cast_int32_fits _ hfit]
  · intro hfit
    simp only [decode_pressure, decode_humidity, hsc, Option.map_some', cast_uint32_fits _ hfit,
      and_self]
  · rw [Int.fdiv_eq_ediv _ (le_of_lt hpos)]
    exact Int.ediv_mul_le _ (ne_of_gt hpos)
  · rw [Int.fdiv_eq_ediv _ (le_of_lt hpos)]
    exact Int.lt_ediv_add_one_mul_self _ hpos
  · intro h0
    rw [Int.fdiv_eq_ediv _ (le_of_lt hpos), Int.tdiv_eq_ediv (by positivity) (le_of_lt hpos)]

theorem decode_is_floor_witness :
    decode_temperature (-1) 27 = some (Int.fdiv (-1 * 1000) (2 ^ (31 - 27 : Int).toNat)) :=
  (decode_is_floor (-1) 27 (by decide) (by decide)).1 (by decide)

/-- C9 as stated fails: the raw value `-1` with shift 27 (a shift count of 4) is stored as
`-63`, while `-1000 / 16` with the fractional part dropped toward zero is `-62`. -/
theorem decode_not_toward_zero :
    decode_temperature (-1) 27 = some (-63)
    ∧ Int.tdiv (-1 * 1000) (2 ^ (31 - 27)) = -62
    ∧ decode_temperature (-1) 27 ≠ some (Int.tdiv (-1 * 1000) (2 ^ (31 - 27))) := by
  decide

/-! ## Link events: the claims -/

theorem net_event_handler_calls (bus : Nat → Int) (e : net_event) (s : NetState) :
    ∃ cs, (net_event_handler bus e s).calls = s.calls ++ cs
      ∧ count_up cs = count_addr [e] := by
  cases e with
  | WIFI_CONNECT_RESULT => exact ⟨[], by simp [net_event_handler], by decide⟩
  | WIFI_DISCONNECT_RESULT =>
    exact ⟨[NetCall.zbus_chan_pub { is_connected := false }, NetCall.net_mgmt_wifi_connect],
      by simp [net_event_handler, net_state_publish, wifi_connect], by decide⟩
  | IPV4_ADDR_ADD =>
    exact ⟨[NetCall.zbus_chan_pub { is_connected := true }],
      by simp [net_event_handler, net_state_publish], by decide⟩
  | OTHER c => exact ⟨[], by simp [net_event_handler], by simp [count_up, count_addr]⟩

/-- C10, as the code has it: over any sequence of link events, from any state, the handler
publishes `is_connected = true` once per address-assigned event, so the number of such
publications in a span equals the number of address-assigned events in it (one when there
is exactly one, more when there are several); a link-layer connect result publishes
nothing. -/
theorem link_up_once_per_address (bus : Nat → Int) (evs : List net_event) (s : NetState) :
    (∃ cs, (net_events bus evs s).calls = s.calls ++ cs ∧ count_up cs = count_addr evs)
    ∧ net_event_handler bus net_event.WIFI_CONNECT_RESULT s = s := by
  refine ⟨?_, rfl⟩
  induction evs generalizing s with
  | nil => exact ⟨[], by simp [net_events], rfl⟩
  | cons e es ih =>
    obtain ⟨c1, h1, k1⟩ := net_event_handler_calls bus e s
    obtain ⟨c2, h2, k2⟩ := ih (net_event_handler bus e s)
    refine ⟨c1 ++ c2, ?_, ?_⟩
    · simp only [net_events, List.foldl_cons] at h2 ⊢
      rw [h2, h1, List.append_assoc]
    · simp only [count_up, count_addr, List.count_append, List.count_cons, List.count_nil] at *
      omega

/-- C10 as stated fails: two address-assigned events with no disconnect between them
publish `is_connected = true` twice. -/
theorem link_up_published_twice :
    (net_events bus_ok [net_event.IPV4_ADDR_ADD, net_event.IPV4_ADDR_ADD] { calls := [] }).calls
      = [NetCall.zbus_chan_pub { is_connected := true },
          NetCall.zbus_chan_pub { is_connected := true }]
    ∧ count_up (net_events bus_ok [net_event.IPV4_ADDR_ADD, net_event.IPV4_ADDR_ADD]
        { calls := [] }).calls = 2 := by
  decide

/-! ## The session: lemmas on the thread loop -/

theorem publish_sensor_data_net (env : Env) (r : sensor_reading) (s : State) :
    (publish_sensor_data env r s).net_connected = s.net_connected := by
  simp [publish_sensor_data, publish_to_topic, mqtt_publish, client_call_net]

theorem service_live_net (env : Env) (s : State) :
    (service_live env s).net_connected = s.net_connected := by
  unfold service_live
  simp only [mqtt_live]
  split_ifs <;> simp [client_call_net]

theorem service_mqtt_connection_net (env : Env) (s : State) :
    (service_mqtt_connection env s).net_connected = s.net_connected := by
  unfold service_mqtt_connection
  simp only [mqtt_input]
  split_ifs <;> simp [client_call_net, service_live_net]

theorem dispatch_net (env : Env) (w : BusWait) (s : State) :
    some (mqtt_thread_dispatch env w s).net_connected = last_link (some s.net_connected) [w] := by
  cases w with
  | net_state_chan m =>
    simp only [mqtt_thread_dispatch, mqtt_disconnect, last_link, List.foldl_cons, List.foldl_nil]
    split_ifs <;> simp [client_call_net]
  | sensor_data_chan m =>
    simp only [mqtt_thread_dispatch, last_link, List.foldl_cons, List.foldl_nil]
    split_ifs <;> simp [publish_sensor_data_net]
  | other_chan => rfl
  | failed rc =>
    simp only [mqtt_thread_dispatch, last_link, List.foldl_cons, List.foldl_nil]
    split_ifs <;> simp [service_mqtt_connection_net]

theorem dispatch_link_down (env : Env) (s : State) :
    (mqtt_thread_dispatch env (BusWait.net_state_chan { is_connected := false }) s).mqtt_connected
        = false
    ∧ (mqtt_thread_dispatch env (BusWait.net_state_chan { is_connected := false }) s).net_connected
        = false := by
  simp only [mqtt_thread_dispatch, mqtt_disconnect]
  split_ifs with h
  · simp [client_call_net]
  · simpa using h

theorem dispatch_inv (env : Env) (w : BusWait) (s : State)
    (h : s.mqtt_connected = true → s.net_connected = true) :
    (mqtt_thread_dispatch env w s).mqtt_connected = true →
      (mqtt_thread_dispatch env w s).net_connected = true := by
  cases w with
  | net_state_chan m =>
    simp only [mqtt_thread_dispatch, mqtt_disconnect]
    split_ifs with hc
    · simp
    · intro hm
      simp only [Bool.not_eq_true, not_and, Bool.not_eq_false] at hc
      cases hb : m.is_connected
      · simp [hc hb] at hm
      · rfl
  | sensor_data_chan m =>
    simp only [mqtt_thread_dispatch]
    split_ifs with hc
    · intro _
      rw [publish_sensor_data_net]
      exact h hc
    · exact h
  | other_chan => exact h
  | failed rc =>
    simp only [mqtt_thread_dispatch]
    split_ifs with h1 h2 hc
    · exact h
    · intro _
      rw [service_mqtt_connection_net]
      exact h hc
    · exact h
    · exact h

/-- What a reconnect step that comes to an end does. -/
theorem reconnect_spec (cfg : Config) (env : Env) (fuel : Nat) (s s1 : State)
    (h : mqtt_thread_reconnect cfg env fuel s = some s1) :
    s1.net_connected = s.net_connected
    ∧ (s.net_connected = false → s1 = s)
    ∧ ∃ cs, s1.trace = s.trace ++ cs ∧ cs.countP is_publish = 0 := by
  unfold mqtt_thread_reconnect at h
  split_ifs at h with hc
  · cases hb : mqtt_connect_to_broker cfg env fuel s with
    | none => simp [hb] at h
    | some r =>
      obtain ⟨hnet, _, _, cs, htr, hpub, _, _⟩ := mqtt_connect_to_broker_spec cfg env fuel s r hb
      simp only [hb] at h
      split_ifs at h <;> simp only [Option.some.injEq] at h <;> subst h
      · exact ⟨hnet, fun hf => by simp [hf] at hc,
          cs ++ [Call.k_sleep MQTT_CONNECT_FAILURE_BACKOFF_SEC],
          by simp [htr], by simp [List.countP_append, hpub, is_publish]⟩
      · exact ⟨hnet, fun hf => by simp [hf] at hc, cs, htr, hpub⟩
  · simp only [Option.some.injEq] at h
    subst h
    exact ⟨rfl, fun _ => rfl, [], by simp, rfl⟩

theorem iter_inv (cfg : Config) (env : Env) (fuel : Nat) (w : BusWait) (s s1 : State)
    (hinv : s.mqtt_connected = true → s.net_connected = true)
    (h : mqtt_thread_iter cfg env fuel w s = some s1) :
    (s1.mqtt_connected = true → s1.net_connected = true)
    ∧ some s1.net_connected = last_link (some s.net_connected) [w] := by
  unfold mqtt_thread_iter at h
  obtain ⟨hnet, hsame, _⟩ := reconnect_spec cfg env fuel _ s1 h
  refine ⟨?_, by rw [hnet, dispatch_net]⟩
  intro hm
  cases hb : (mqtt_thread_dispatch env w s).net_connected
  · rw [hsame hb] at hm ⊢
    exact dispatch_inv env w s hinv hm
  · rw [hnet, hb]

theorem run_inv (cfg : Config) (env : Env) (fuel : Nat) :
    ∀ (ws : List BusWait) (s s1 : State),
      (s.mqtt_connected = true → s.net_connected = true) →
      mqtt_thread_run cfg env fuel ws s = some s1 →
      (s1.mqtt_connected = true → s1.net_connected = true)
      ∧ some s1.net_connected = last_link (some s.net_connected) ws := by
  intro ws
  induction ws with
  | nil =>
    intro s s1 hinv h
    simp only [mqtt_thread_run, Option.some.injEq] at h
    subst h
    exact ⟨hinv, rfl⟩
  | cons w ws ih =>
    intro s s1 hinv h
    simp only [mqtt_thread_run] at h
    cases hi : mqtt_thread_iter cfg env fuel w s with
    | none => simp [hi] at h
    | some s2 =>
      simp only [hi] at h
      obtain ⟨hinv2, hnet2⟩ := iter_inv cfg env fuel w s s2 hinv hi
      obtain ⟨hinv1, hnet1⟩ := ih s2 s1 hinv2 h
      refine ⟨hinv1, ?_⟩
      rw [hnet1, hnet2]
      simp [last_link]

theorem run_append (cfg : Config) (env : Env) (fuel : Nat) (a b : List BusWait) :
    ∀ s : State, mqtt_thread_run cfg env fuel (a ++ b) s
      = (mqtt_thread_run cfg env fuel a s).bind (mqtt_thread_run cfg env fuel b) := by
  induction a with
  | nil => intro s; rfl
  | cons w ws ih =>
    intro s
    simp only [List.cons_append, mqtt_thread_run]
    cases mqtt_thread_iter cfg env fuel w s with
    | none => rfl
    | some s2 => exact ih s2

theorem last_link_init (ws : List BusWait) :
    ∀ b : Bool, last_link (some b) ws = some true → last_link none ws = some true ∨
      (last_link none ws = none ∧ b = true) := by
  induction ws using List.reverseRecOn with
  | nil => intro b h; right; exact ⟨rfl, by simpa [last_link] using h⟩
  | append_singleton ws w ih =>
    intro b h
    simp only [last_link, List.foldl_append, List.foldl_cons, List.foldl_nil] at h ih ⊢
    cases w with
    | net_state_chan m => left; simpa using h
    | sensor_data_chan m => exact ih b h
    | other_chan => exact ih b h
    | failed rc => exact ih b h

/-! ## The session: lemmas on the retry loop -/

theorem connect_loop_after_failures (cfg : Config) (env : Env) (fuel : Nat) (s : State) :
    ∀ k : Nat, (cfg.MQTT_MAX_RETRY_COUNT = 0 ∨ k ≤ cfg.MQTT_MAX_RETRY_COUNT) → k ≤ fuel →
      (∀ j, j < k → attempt_result env s j ≠ AttemptResult.accepted) →
      connect_loop cfg env fuel 0 s
        = connect_loop cfg env (fuel - k) k (attempt_state env s k) := by
  intro k
  induction k with
  | zero => intro _ _ _; rfl
  | succ k ih =>
    intro hN hf hfail
    rw [ih (by omega) (by omega) (fun j hj => hfail j (by omega))]
    obtain ⟨f, hfk⟩ : ∃ f, fuel - k = f + 1 := ⟨fuel - k - 1, by omega⟩
    have hf1 : fuel - (k + 1) = f := by omega
    have hc : cfg.MQTT_MAX_RETRY_COUNT = 0 ∨ k < cfg.MQTT_MAX_RETRY_COUNT := by omega
    have hr : ¬ ((connect_attempt env k (attempt_state env s k)).1 = AttemptResult.accepted) :=
      hfail k (by omega)
    rw [hfk, hf1]
    conv_lhs => unfold connect_loop
    simp only [hc, if_true, hr, if_false]
    rfl

theorem attempt_state_spec (env : Env) (s : State) :
    ∀ k : Nat, (∀ j, j < k → attempt_result env s j ≠ AttemptResult.accepted) →
      ∃ cs, (attempt_state env s k).trace = s.trace ++ cs
        ∧ cs.countP is_connect = k
        ∧ cs.countP is_connect_ok = cs.countP is_disconnect
        ∧ handle_after false cs = some false := by
  intro k
  induction k with
  | zero => intro _; exact ⟨[], by simp [attempt_state], rfl, rfl, rfl⟩
  | succ k ih =>
    intro hfail
    obtain ⟨cs, htr, hcon, hbal, hh⟩ := ih (fun j hj => hfail j (by omega))
    obtain ⟨_, _, cs2, htr2, hcon2, _, hbal2, hh2⟩ :=
      connect_attempt_spec env k (attempt_state env s k)
    have hr : ¬ ((connect_attempt env k (attempt_state env s k)).1 = AttemptResult.accepted) :=
      hfail k (by omega)
    simp only [hr, if_false, decide_False, Nat.add_zero] at hbal2 hh2
    refine ⟨cs ++ cs2, ?_, ?_, ?_, ?_⟩
    · simp only [attempt_state]
      rw [htr2, htr, List.append_assoc]
    · simp only [List.countP_append, hcon, hcon2]
    · simp only [List.countP_append, hbal, hbal2]
    · rw [handle_after_append, hh]
      exact hh2

/-- With a retry bound `N > 0`, fuel `N` is enough for the retry loop to come to an end. -/
theorem connect_loop_total (cfg : Config) (env : Env) (hN : 0 < cfg.MQTT_MAX_RETRY_COUNT) :
    ∀ (fuel attempt : Nat) (s : State), cfg.MQTT_MAX_RETRY_COUNT ≤ fuel + attempt →
      ∃ r, connect_loop cfg env fuel attempt s = some r := by
  intro fuel
  induction fuel with
  | zero =>
    intro attempt s h
    have hc : ¬ (cfg.MQTT_MAX_RETRY_COUNT = 0 ∨ attempt < cfg.MQTT_MAX_RETRY_COUNT) := by omega
    unfold connect_loop
    simp only [hc, if_false]
    exact ⟨_, rfl⟩
  | succ fuel ih =>
    intro attempt s h
    unfold connect_loop
    split_ifs with hc
    · simp only
      split_ifs
      · exact ⟨_, rfl⟩
      · exact ih (attempt + 1) _ (by omega)
    · exact ⟨_, rfl⟩

theorem reconnect_total (cfg : Config) (env : Env) (fuel : Nat) (s : State)
    (hN : 0 < cfg.MQTT_MAX_RETRY_COUNT) (hfuel : cfg.MQTT_MAX_RETRY_COUNT ≤ fuel) :
    ∃ s1, mqtt_thread_reconnect cfg env fuel s = some s1 := by
  unfold mqtt_thread_reconnect
  split_ifs
  · have hb : ∃ r, mqtt_connect_to_broker cfg env fuel s = some r := by
      unfold mqtt_connect_to_broker
      split_ifs
      · exact ⟨_, rfl⟩
      · exact connect_loop_total cfg env hN fuel 0 s (by omega)
    obtain ⟨r, hr⟩ := hb
    simp only [hr]
    split_ifs <;> exact ⟨_, rfl⟩
  · exact ⟨_, rfl⟩

theorem run_total (cfg : Config) (env : Env) (fuel : Nat)
    (hN : 0 < cfg.MQTT_MAX_RETRY_COUNT) (hfuel : cfg.MQTT_MAX_RETRY_COUNT ≤ fuel) :
    ∀ (ws : List BusWait) (s : State), ∃ s1, mqtt_thread_run cfg env fuel ws s = some s1 := by
  intro ws
  induction ws with
  | nil => intro s; exact ⟨s, rfl⟩
  | cons w ws ih =>
    intro s
    obtain ⟨s2, h2⟩ := reconnect_total cfg env fuel (mqtt_thread_dispatch env w s) hN hfuel
    simp only [mqtt_thread_run, mqtt_thread_iter, h2]
    exact ih s2

/-! ## The session: the claims -/

/-- C1: over every sequence of waits of `mqtt_thread` from thread start and every behaviour
of the collaborators, at the end of a loop pass `mqtt_connected` is true only if the last
`net_state_chan` message received carried `is_connected = true` (`net_connected` is true);
and a pass that receives `is_connected = false` ends with `mqtt_connected = false`.  With a
retry bound `N > 0` and fuel `N` every pass comes to an end. -/
theorem connected_only_while_link_up (cfg : Config) (env : Env) (fuel : Nat)
    (ws : List BusWait) :
    (∀ s, mqtt_thread_run cfg env fuel ws State.init = some s →
      (s.mqtt_connected = true → last_link none ws = some true)
      ∧ (s.mqtt_connected = true → s.net_connected = true)
      ∧ (∀ pre, ws = pre ++ [BusWait.net_state_chan { is_connected := false }] →
          s.mqtt_connected = false))
    ∧ (0 < cfg.MQTT_MAX_RETRY_COUNT → cfg.MQTT_MAX_RETRY_COUNT ≤ fuel →
        ∃ s, mqtt_thread_run cfg env fuel ws State.init = some s) := by
  refine ⟨?_, fun hN hfuel => run_total cfg env fuel hN hfuel ws State.init⟩
  intro s h
  have hinit : State.init.mqtt_connected = true → State.init.net_connected = true := by
    intro h0
    exact absurd h0 (by decide)
  obtain ⟨hinv, hnet⟩ := run_inv cfg env fuel ws State.init s hinit h
  refine ⟨?_, hinv, ?_⟩
  · intro hm
    rw [hinv hm] at hnet
    rcases last_link_init ws false hnet.symm with h1 | ⟨_, h2⟩
    · exact h1
    · exact absurd h2 (by decide)
  · intro pre hws
    subst hws
    rw [run_append] at h
    cases hp : mqtt_thread_run cfg env fuel pre State.init with
    | none => simp [hp] at h
    | some s2 =>
      simp only [hp, Option.some_bind, mqtt_thread_run] at h
      cases hi : mqtt_thread_iter cfg env fuel
          (BusWait.net_state_chan { is_connected := false }) s2 with
      | none => simp [hi] at h
      | some s3 =>
        simp only [hi, Option.some.injEq] at h
        subst h
        unfold mqtt_thread_iter at hi
        obtain ⟨_, hsame, _⟩ := reconnect_spec cfg env fuel _ s3 hi
        rw [hsame (dispatch_link_down env s2).2]
        exact (dispatch_link_down env s2).1

theorem connected_only_while_link_up_witness :
    mqtt_thread_run cfg_three env_accept 1 [BusWait.net_state_chan { is_connected := true }]
        State.init
      = some state_accepted
    ∧ last_link none [BusWait.net_state_chan { is_connected := true }] = some true :=
  ⟨by decide,
    ((connected_only_while_link_up cfg_three env_accept 1
      [BusWait.net_state_chan { is_connected := true }]).1 state_accepted (by decide)).1 rfl⟩

/-- C5: a reading received while `mqtt_connected` is false causes no transport publish in
the pass that receives it, and none later: the pass, and every run that continues from it,
is the same as if a message of no interest had arrived in its place, so nothing of the
reading is kept.  With a retry bound `N > 0` and fuel `N` the pass comes to an end. -/
theorem reading_dropped_when_not_connected (cfg : Config) (env : Env) (fuel : Nat)
    (r : sensor_reading) (s : State) (h : s.mqtt_connected = false) :
    mqtt_thread_dispatch env (BusWait.sensor_data_chan r) s = s
    ∧ (∀ s1, mqtt_thread_iter cfg env fuel (BusWait.sensor_data_chan r) s = some s1 →
        ∃ cs, s1.trace = s.trace ++ cs ∧ cs.countP is_publish = 0)
    ∧ (∀ ws, mqtt_thread_run cfg env fuel (BusWait.sensor_data_chan r :: ws) s
        = mqtt_thread_run cfg env fuel (BusWait.other_chan :: ws) s)
    ∧ (0 < cfg.MQTT_MAX_RETRY_COUNT → cfg.MQTT_MAX_RETRY_COUNT ≤ fuel →
        ∃ s1, mqtt_thread_iter cfg env fuel (BusWait.sensor_data_chan r) s = some s1) := by
  have hd : mqtt_thread_dispatch env (BusWait.sensor_data_chan r) s = s := by
    simp [mqtt_thread_dispatch, h]
  refine ⟨hd, ?_, ?_, fun hN hfuel => reconnect_total cfg env fuel _ hN hfuel⟩
  · intro s1 hi
    unfold mqtt_thread_iter at hi
    rw [hd] at hi
    exact (reconnect_spec cfg env fuel s s1 hi).2.2
  · intro ws
    simp only [mqtt_thread_run, mqtt_thread_iter, mqtt_thread_dispatch, h,
      Bool.false_eq_true, if_false]

theorem reading_dropped_when_not_connected_witness :
    state_link_up.mqtt_connected = false
    ∧ mqtt_thread_dispatch env_accept (BusWait.sensor_data_chan reading_scenario) state_link_up
      = state_link_up
    ∧ mqtt_thread_run cfg_three env_accept 1
        [BusWait.sensor_data_chan reading_scenario, BusWait.sensor_data_chan reading_scenario]
        state_link_up
      = mqtt_thread_run cfg_three env_accept 1
        [BusWait.other_chan, BusWait.sensor_data_chan reading_scenario] state_link_up :=
  ⟨rfl,
    (reading_dropped_when_not_connected cfg_three env_accept 1 reading_scenario state_link_up
      rfl).1,
    (reading_dropped_when_not_connected cfg_three env_accept 1 reading_scenario state_link_up
      rfl).2.2.1 [BusWait.sensor_data_chan reading_scenario]⟩

/-- C6: with a retry bound `N > 0` and a valid broker address, when every one of the `N`
attempts fails (in whichever way), `mqtt_connect_to_broker` returns `-ETIMEDOUT` after
exactly `N` calls of `mqtt_connect`, and the loop pass of `mqtt_thread` ends with the 30 s
sleep right after them: no further `mqtt_connect` precedes the cooldown. -/
theorem retry_bound_then_cooldown (cfg : Config) (env : Env) (fuel : Nat) (s : State)
    (hN : 0 < cfg.MQTT_MAX_RETRY_COUNT) (haddr : cfg.broker_addr_valid = true)
    (hnet : s.net_connected = true) (hmq : s.mqtt_connected = false)
    (hfail : ∀ k, k < cfg.MQTT_MAX_RETRY_COUNT →
      attempt_result env s k ≠ AttemptResult.accepted)
    (hfuel : cfg.MQTT_MAX_RETRY_COUNT ≤ fuel) :
    ∃ s1 cs, mqtt_connect_to_broker cfg env fuel s = some (-ETIMEDOUT, s1)
      ∧ s1.trace = s.trace ++ cs
      ∧ cs.countP is_connect = cfg.MQTT_MAX_RETRY_COUNT
      ∧ ∃ s2, mqtt_thread_reconnect cfg env fuel s = some s2
        ∧ s2.trace = s.trace ++ cs ++ [Call.k_sleep 30] := by
  obtain ⟨cs, htr, hcon, _, _⟩ := attempt_state_spec env s cfg.MQTT_MAX_RETRY_COUNT hfail
  have hloop : mqtt_connect_to_broker cfg env fuel s
      = some (-ETIMEDOUT, attempt_state env s cfg.MQTT_MAX_RETRY_COUNT) := by
    have hne : ¬ (cfg.MQTT_MAX_RETRY_COUNT = 0
        ∨ cfg.MQTT_MAX_RETRY_COUNT < cfg.MQTT_MAX_RETRY_COUNT) := by omega
    simp only [mqtt_connect_to_broker, haddr, Bool.true_eq_false, if_false]
    rw [connect_loop_after_failures cfg env fuel s cfg.MQTT_MAX_RETRY_COUNT (Or.inr (le_refl _))
      hfuel hfail]
    unfold connect_loop
    simp only [hne, if_false]
  refine ⟨_, cs, hloop, htr, hcon,
    k_sleep MQTT_CONNECT_FAILURE_BACKOFF_SEC (attempt_state env s cfg.MQTT_MAX_RETRY_COUNT),
    ?_, ?_⟩
  · have hneg : (-ETIMEDOUT : Int) < 0 := by decide
    simp only [mqtt_thread_reconnect, hnet, hmq, and_self, if_true, hloop, hneg]
  · simp [htr, MQTT_CONNECT_FAILURE_BACKOFF_SEC]

theorem retry_bound_then_cooldown_witness :
    ∃ s1 cs, mqtt_connect_to_broker cfg_three env_silent 3 state_link_up = some (-ETIMEDOUT, s1)
      ∧ s1.trace = state_link_up.trace ++ cs
      ∧ cs.countP is_connect = cfg_three.MQTT_MAX_RETRY_COUNT
      ∧ ∃ s2, mqtt_thread_reconnect cfg_three env_silent 3 state_link_up = some s2
        ∧ s2.trace = state_link_up.trace ++ cs ++ [Call.k_sleep 30] :=
  retry_bound_then_cooldown cfg_three env_silent 3 state_link_up (by decide) rfl rfl rfl
    (by decide) (by decide)

/-- C7: in `mqtt_connect_to_broker` every attempt that opened the transport and was not
accepted calls `mqtt_disconnect` before the attempt ends, hence before the next
`mqtt_connect` and before the return: following the handle along the calls of one attempt,
of any number of failed attempts in a row, and of a whole call that returns, no transport
is opened over an open one, the handle is closed at the end unless the session was
accepted, and successful `mqtt_connect` calls and `mqtt_disconnect` calls are then equal
in number. -/
theorem failed_attempts_close_transport (cfg : Config) (env : Env) (fuel : Nat) (s : State) :
    (∀ k, ∃ cs, (connect_attempt env k s).2.trace = s.trace ++ cs
      ∧ handle_after false cs
          = some (decide ((connect_attempt env k s).1 = AttemptResult.accepted))
      ∧ ((connect_attempt env k s).1 ≠ AttemptResult.accepted →
          cs.countP is_connect_ok = cs.countP is_disconnect))
    ∧ (∀ k, (∀ j, j < k → attempt_result env s j ≠ AttemptResult.accepted) →
        ∃ cs, (attempt_state env s k).trace = s.trace ++ cs
          ∧ cs.countP is_connect = k
          ∧ handle_after false cs = some false
          ∧ cs.countP is_connect_ok = cs.countP is_disconnect)
    ∧ (∀ r, mqtt_connect_to_broker cfg env fuel s = some r →
        ∃ cs, r.2.trace = s.trace ++ cs
          ∧ handle_after false cs = some (decide (r.1 = 0))
          ∧ (r.1 ≠ 0 → cs.countP is_connect_ok = cs.countP is_disconnect)) := by
  refine ⟨?_, ?_, ?_⟩
  · intro k
    obtain ⟨_, _, cs, htr, _, _, hbal, hh⟩ := connect_attempt_spec env k s
    refine ⟨cs, htr, hh, ?_⟩
    intro hne
    simpa [hne] using hbal
  · intro k hfail
    obtain ⟨cs, htr, hcon, hbal, hh⟩ := attempt_state_spec env s k hfail
    exact ⟨cs, htr, hcon, hh, hbal⟩
  · intro r hr
    obtain ⟨_, _, _, cs, htr, _, hbal, hh⟩ := mqtt_connect_to_broker_spec cfg env fuel s r hr
    refine ⟨cs, htr, hh, ?_⟩
    intro hne
    simpa [hne] using hbal

/-- C8, evaluated on the code: a connected session whose servicing step meets a socket poll
error clears `mqtt_connected` without calling `mqtt_disconnect`; the reconnect of the same
loop pass re-initialises the client and opens a new transport over the one still open. -/
theorem service_error_leaves_transport_open :
    (mqtt_thread_dispatch env_poll_error (BusWait.failed (-EAGAIN)) state_connected)
      = { mqtt_connected := false, net_connected := true, trace := [Call.zsock_poll 0 (-1)] }
    ∧ mqtt_thread_iter cfg_three env_poll_error 1 (BusWait.failed (-EAGAIN)) state_connected
      = some { mqtt_connected := true, net_connected := true,
               trace := [Call.zsock_poll 0 (-1), Call.mqtt_client_init, Call.mqtt_connect 0,
                 Call.zsock_poll 5000 1, Call.mqtt_input 0] }
    ∧ handle_after true [Call.zsock_poll 0 (-1), Call.mqtt_client_init, Call.mqtt_connect 0,
        Call.zsock_poll 5000 1, Call.mqtt_input 0] = none := by
  decide

end IotMonitor
